import Mathlib

/-!
Shallow embedding of `src/disorderfs.cpp` (disorderfs 0.5.12, fork with
ctime sorting): the directory enumeration and reordering engine, the
privilege separation guard, and attribute padding, together with theorems
checking the specification's claims about them.

Modelling conventions:
* A `Dirent` is the `(d_name, d_ino)` pair collected by the `readdir` loop
  of the `opendir` operation.
* The underlying filesystem is an explicit value `Fs`: the raw entry list
  the underlying `opendir`/`readdir(3)` enumeration yields for the directory
  (or the `errno` of a failure of that enumeration), and the `st_ctim`
  field an `lstat` on a given absolute path reports (or the `errno` of a
  failing `lstat`).
* `errno` is threaded explicitly where the C code's behaviour depends on
  it: a failing `lstat` during ctime capture leaves `errno` set, and
  `opendir` tests `errno != 0` after `closedir`.
* `std::sort(first, last, comp)` is modelled by a concrete comparison sort
  (`cppSort`) whose result is a permutation of the input ordered by
  `fun a b => ¬ comp b a`.
* `std::shuffle` draws from `std::mt19937` seeded by `std::random_device`;
  enumeration therefore takes the permutation the shuffle would produce as
  an oracle argument.
* `perror_and_die` (perror + `std::abort`) is modelled by the `aborted`
  outcome; the thread-directed credential syscalls are modelled by a
  failure oracle saying which primitive calls return -1.
-/

deriving instance DecidableEq for Except

namespace Disorderfs

/-- `Disorderfs_config`: the process-wide configuration struct with the
default member values from the source.  Members are C `int`s; a flag is
enabled when nonzero. -/
structure Disorderfs_config where
  multi_user : Int := 0
  shuffle_dirents : Int := 0
  reverse_dirents : Int := 1
  sort_dirents : Int := 0
  pad_blocks : Int := 1
  share_locks : Int := 0
  quiet : Int := 0
  sort_by_ctime : Int := 0
deriving DecidableEq, Repr

/-- The global `Disorderfs_config config;` value, default-initialized. -/
def config : Disorderfs_config := {}

/-- One directory entry as captured by the `readdir` loop of `opendir`:
`std::pair<std::string, ino_t>`. -/
abbrev Dirent := String × Nat

/-- `Dirents`: `std::vector<std::pair<std::string, ino_t>>`. -/
abbrev Dirents := List Dirent

/-- `struct timespec` as used for `st_ctim`: seconds and nanoseconds. -/
structure Timespec where
  tv_sec : Int
  tv_nsec : Int
deriving DecidableEq, Repr

/-- The overloaded `operator<` on `timespec` from the source: compare
seconds, then nanoseconds on equal seconds. -/
def timespecLt (first second : Timespec) : Prop :=
  first.tv_sec < second.tv_sec ∨
    (first.tv_sec = second.tv_sec ∧ first.tv_nsec < second.tv_nsec)

instance : DecidableRel timespecLt := fun a b => by
  unfold timespecLt; infer_instance

/-- `const timespec INVALID = {0,0};` -/
def INVALID : Timespec := ⟨0, 0⟩

/-- `Ctime_Dirent_pair`: a captured timestamp paired with its entry. -/
abbrev Ctime_Dirent_pair := Timespec × Dirent

/-- `compare_ctime_dirents`: compare keyed entries by timestamp only. -/
def compare_ctime_dirents (a b : Ctime_Dirent_pair) : Prop := timespecLt a.1 b.1

instance : DecidableRel compare_ctime_dirents := fun a b => by
  unfold compare_ctime_dirents; infer_instance

/-- Lexicographic comparison of character sequences, as
`std::string::operator<` compares the bytes of a name (UTF-8 is
order-preserving, so comparing scalar values agrees with comparing
bytes). -/
def charsLt : List Char → List Char → Bool
  | _, [] => false
  | [], _ :: _ => true
  | a :: as, b :: bs =>
    if a < b then true
    else if a = b then charsLt as bs
    else false

/-- `operator<` on `std::string`. -/
def nameLt (a b : String) : Prop := charsLt a.data b.data = true

instance : DecidableRel nameLt := fun a b => by
  unfold nameLt; infer_instance

/-- `operator<` on `std::pair<std::string, ino_t>`: lexicographic on the
name, ties broken by the inode. -/
def direntLt (a b : Dirent) : Prop :=
  nameLt a.1 b.1 ∨ (a.1 = b.1 ∧ a.2 < b.2)

instance : DecidableRel direntLt := fun a b => by
  unfold direntLt; infer_instance

/-- The underlying directory as the embedding sees it. -/
structure Fs where
  listing : Except Nat Dirents
  ctime : String → Except Nat Timespec

/-- The prologue of `create_ctime_dirents_list`: append a trailing `'/'` to
the absolute path when it is missing. -/
def appendSlash (abspath : String) : String :=
  if abspath.back ≠ '/' then abspath ++ "/" else abspath

/-- The loop of `create_ctime_dirents_list`: one `lstat` per entry, pairing
each entry with its captured `st_ctim`, or with `INVALID` after a failed
`lstat` (which also prints a warning to stderr).  Returns the keyed list,
the list of paths warned about, and the value of `errno` afterwards (a
failing `lstat` sets it; nothing later in `opendir` clears it). -/
def ctime_capture (ctime : String → Except Nat Timespec) (dir : String) :
    Dirents → Nat → List Ctime_Dirent_pair × List String × Nat
  | [], e => ([], [], e)
  | d :: ds, e =>
    match ctime (dir ++ d.1) with
    | .ok t =>
      let r := ctime_capture ctime dir ds e
      ((t, d) :: r.1, r.2)
    | .error err =>
      let r := ctime_capture ctime dir ds err
      ((INVALID, d) :: r.1, (dir ++ d.1) :: r.2.1, r.2.2)

/-- `create_ctime_dirents_list(dirents, abspath)`, with the incoming value
of `errno` made explicit. -/
def create_ctime_dirents_list (ctime : String → Except Nat Timespec)
    (abspath : String) (dirents : Dirents) (errno0 : Nat) :
    List Ctime_Dirent_pair × List String × Nat :=
  ctime_capture ctime (appendSlash abspath) dirents errno0

/-- The timestamp `create_ctime_dirents_list` captures for one entry (`dir`
already carries the trailing slash). -/
def ctimeKey (ctime : String → Except Nat Timespec) (dir : String)
    (d : Dirent) : Timespec :=
  match ctime (dir ++ d.1) with
  | .ok t => t
  | .error _ => INVALID

/-- `overwrite_dirents`: write `sorted_interim[i].second` over `dirents[i]`
for each index of `sorted_interim`; under the call-site precondition that
the two have equal sizes this keeps exactly the second components, in
order, and drops nothing. -/
def overwrite_dirents (dirents : Dirents)
    (sorted_interim : List Ctime_Dirent_pair) : Dirents :=
  sorted_interim.map Prod.snd ++ dirents.drop sorted_interim.length

/-- One concrete conforming behaviour of `std::sort(first, last, comp)`:
a comparison sort whose result is a permutation of the input in which no
element strictly precedes, under `comp`, an element placed before it. -/
def cppSort {α : Type} (comp : α → α → Prop) [DecidableRel comp]
    (l : List α) : List α :=
  List.insertionSort (fun a b => ¬ comp b a) l

/-- Everything the C++ standard guarantees about the result of a
`std::sort(first, last, comp)` call: the output is a permutation of the
input, ordered so that no element strictly precedes, under `comp`, an
element placed before it.  Nothing more is guaranteed — in particular the
relative order of elements the comparator deems equivalent is
unspecified, so a call whose comparator admits ties does not have a
unique conforming output. -/
def StdSortSpec {α : Type} (comp : α → α → Prop)
    (input output : List α) : Prop :=
  output.Perm input ∧ output.Pairwise (fun a b => ¬ comp b a)

/-- The sorting block of the `opendir` operation (its body under
`if (config.sort_dirents)`): alphabetic sort, or the two-phase ctime sort
(capture, sort the keyed list, write the reordered entries back).  The
`std::sort` call on the ctime-keyed list is the parameter `sortImpl`,
because `compare_ctime_dirents` admits ties (equal captured timestamps)
and the standard then fixes only the contract `StdSortSpec`, not one
output; theorems about this path quantify over every conforming
behaviour.  The alphabetic `std::sort` call needs no such parameter:
`direntLt` is a strict total order under which incomparable pairs are
equal, so every conforming output coincides with `cppSort direntLt`.
Returns the reordered entries, the warnings printed, and the resulting
`errno`. -/
def sortPhaseWith
    (sortImpl : List Ctime_Dirent_pair → List Ctime_Dirent_pair)
    (cfg : Disorderfs_config) (ctime : String → Except Nat Timespec)
    (abspath : String) (dirents0 : Dirents) : Dirents × List String × Nat :=
  if cfg.sort_dirents ≠ 0 then
    if cfg.sort_by_ctime ≠ 0 then
      let tmp := create_ctime_dirents_list ctime abspath dirents0 0
      (overwrite_dirents dirents0 (sortImpl tmp.1), tmp.2.1, tmp.2.2)
    else (cppSort direntLt dirents0, [], 0)
  else (dirents0, [], 0)

/-- The sorting block with the concrete conforming sort standing in for
the ctime `std::sort` call. -/
def sortPhase (cfg : Disorderfs_config) (ctime : String → Except Nat Timespec)
    (abspath : String) (dirents0 : Dirents) : Dirents × List String × Nat :=
  sortPhaseWith (cppSort compare_ctime_dirents) cfg ctime abspath dirents0

/-- The `opendir` FUSE operation, with the behaviour of the ctime
`std::sort` call abstracted as `sortImpl`: enumerate the underlying
directory (`errno` is zero afterwards, as the loop's own `errno` check
returned otherwise), run the sorting block, reverse if configured, call
`closedir`, and then test `errno != 0` — returning `-errno` if it is set,
else storing the snapshot in the handle.  Result: `-errno` as an error,
or the stored snapshot together with the warnings emitted while building
it. -/
def opendirWith
    (sortImpl : List Ctime_Dirent_pair → List Ctime_Dirent_pair)
    (cfg : Disorderfs_config) (fs : Fs) (root path : String) :
    Except Int (Dirents × List String) :=
  match fs.listing with
  | .error e => .error (-(e : Int))
  | .ok dirents0 =>
    let swe := sortPhaseWith sortImpl cfg fs.ctime (root ++ path) dirents0
    let final := if cfg.reverse_dirents ≠ 0 then swe.1.reverse else swe.1
    if swe.2.2 ≠ 0 then .error (-(swe.2.2 : Int))
    else .ok (final, swe.2.1)

/-- The `opendir` FUSE operation with the concrete conforming sort
standing in for the ctime `std::sort` call (adequate for every claim
that does not depend on the order among equal captured ctimes). -/
def opendir (cfg : Disorderfs_config) (fs : Fs) (root path : String) :
    Except Int (Dirents × List String) :=
  opendirWith (cppSort compare_ctime_dirents) cfg fs root path

/-- `ENOMEM` as an `Int`. -/
def ENOMEM : Int := 12

/-- Result of one `readdir` FUSE call: the return value, the entries the
filler accepted in order, and the dirents vector as the handle retains
it. -/
structure ReaddirOut where
  ret : Int
  delivered : Dirents
  state : Dirents
deriving DecidableEq, Repr

/-- The filler loop of `readdir`: entries are offered to the sink in
order; the first offer the sink refuses stops the loop with failure.  The
sink is indexed by the position of the offer. -/
def fill (sink : Nat → Bool) : Dirents → Nat → Bool × Dirents
  | [], _ => (true, [])
  | d :: ds, i =>
    if sink i then ((fill sink ds (i + 1)).1, d :: (fill sink ds (i + 1)).2)
    else (false, [])

/-- The dirents vector of the handle at the start of one `readdir` call:
reshuffled in place when `shuffle_dirents` is enabled (`shuffle` is the
permutation `std::shuffle` driven by
`std::mt19937(std::random_device()())` would produce on this call),
untouched otherwise. -/
def direntsAfterShuffle (cfg : Disorderfs_config)
    (shuffle : Dirents → Dirents) (dirents : Dirents) : Dirents :=
  if cfg.shuffle_dirents ≠ 0 then shuffle dirents else dirents

/-- The `readdir` FUSE operation: optionally reshuffle the stored dirents
in place, then offer every entry to the filler; a refused offer aborts
the call with `-ENOMEM`. -/
def readdir (cfg : Disorderfs_config) (shuffle : Dirents → Dirents)
    (sink : Nat → Bool) (dirents : Dirents) : ReaddirOut :=
  { ret := if (fill sink (direntsAfterShuffle cfg shuffle dirents) 0).1
      then 0 else -ENOMEM,
    delivered := (fill sink (direntsAfterShuffle cfg shuffle dirents) 0).2,
    state := direntsAfterShuffle cfg shuffle dirents }

/-- The `releasedir` FUSE operation: delete the stored dirents, return 0. -/
def releasedir (_dirents : Dirents) : Int := 0

/-- A directory session after open: one `readdir` call per sink, threading
the stored dirents through; `σ k` is the shuffle oracle of call `k`. -/
def runSession (cfg : Disorderfs_config) (σ : Nat → Dirents → Dirents) :
    List (Nat → Bool) → Nat → Dirents → List ReaddirOut
  | [], _, _ => []
  | s :: rest, k, st =>
    readdir cfg (σ k) s st ::
      runSession cfg σ rest (k + 1) (readdir cfg (σ k) s st).state

/-- The fields of `struct stat` the embedding tracks. -/
structure Stat where
  st_ino : Nat := 0
  st_blocks : Int := 0
deriving DecidableEq, Repr

/-- The `getattr` FUSE operation: on a successful `lstat` add `pad_blocks`
to `st_blocks`; on failure return `-errno`. -/
def getattr (cfg : Disorderfs_config) (lstatRes : Except Nat Stat) :
    Except Int Stat :=
  match lstatRes with
  | .error e => .error (-(e : Int))
  | .ok st => .ok { st with st_blocks := st.st_blocks + cfg.pad_blocks }

/-- A thread-directed credential-change primitive call. -/
inductive CredCall
  | setgroups (gs : List Nat)
  | setegid (g : Nat)
  | seteuid (u : Nat)
deriving DecidableEq, Repr

/-- The credential state of the invoking thread. -/
structure Creds where
  groups : List Nat
  egid : Nat
  euid : Nat
deriving DecidableEq, Repr

/-- Outcome of a credential-switching routine: the thread's new
credentials, or death of the whole process through `perror_and_die`
(perror + `std::abort`) with the message it was given. -/
inductive CredResult
  | ok (c : Creds)
  | aborted (msg : String)
deriving DecidableEq, Repr

/-- The caller identity from `fuse_get_context()`. -/
structure FuseContext where
  uid : Nat
  gid : Nat
deriving DecidableEq, Repr

/-- `drop_privileges`: set the supplementary groups, then the effective
gid, then the effective uid of the invoking thread to the caller's
identity; any primitive returning -1 (per the `fail` oracle) kills the
process via `perror_and_die`.  Produces the trace of primitive calls
attempted, in order, and the outcome. -/
def drop_privileges (fail : CredCall → Bool) (groups : List Nat)
    (ctx : FuseContext) : List CredCall × CredResult :=
  if fail (.setgroups groups) then ([.setgroups groups], .aborted "setgroups")
  else if fail (.setegid ctx.gid) then
    ([.setgroups groups, .setegid ctx.gid], .aborted "setegid")
  else if fail (.seteuid ctx.uid) then
    ([.setgroups groups, .setegid ctx.gid, .seteuid ctx.uid],
      .aborted "seteuid")
  else
    ([.setgroups groups, .setegid ctx.gid, .seteuid ctx.uid],
      .ok { groups := groups, egid := ctx.gid, euid := ctx.uid })

/-- `restore_privileges`: restore the effective uid to 0, then the
effective gid to 0, then clear the supplementary groups; any primitive
returning -1 kills the process via `perror_and_die`. -/
def restore_privileges (fail : CredCall → Bool) :
    List CredCall × CredResult :=
  if fail (.seteuid 0) then ([.seteuid 0], .aborted "seteuid()")
  else if fail (.setegid 0) then
    ([.seteuid 0, .setegid 0], .aborted "setegid(0)")
  else if fail (.setgroups []) then
    ([.seteuid 0, .setegid 0, .setgroups []], .aborted "setgroups(0)")
  else
    ([.seteuid 0, .setegid 0, .setgroups []],
      .ok { groups := [], egid := 0, euid := 0 })

/-- The `Guard` constructor: drop privileges only when `multi_user` is
enabled and the process real uid (`getuid()`) is 0; otherwise a no-op on
the thread credentials `c`. -/
def guardAcquire (cfg : Disorderfs_config) (procUid : Nat)
    (fail : CredCall → Bool) (groups : List Nat) (ctx : FuseContext)
    (c : Creds) : List CredCall × CredResult :=
  if cfg.multi_user ≠ 0 ∧ procUid = 0 then drop_privileges fail groups ctx
  else ([], .ok c)

/-- The `Guard` destructor: restore privileges under the same condition as
the constructor; otherwise a no-op on the thread credentials `c`. -/
def guardRelease (cfg : Disorderfs_config) (procUid : Nat)
    (fail : CredCall → Bool) (c : Creds) : List CredCall × CredResult :=
  if cfg.multi_user ≠ 0 ∧ procUid = 0 then restore_privileges fail
  else ([], .ok c)

/-- A small concrete underlying directory used by witnesses: raw
enumeration order `[c, a, b]` with inodes 3, 1, 2 (the scenario of the
specification), every ctime query succeeding. -/
def fsCAB : Fs :=
  { listing := .ok [("c", 3), ("a", 1), ("b", 2)],
    ctime := fun _ => .ok ⟨0, 0⟩ }

/-- A concrete underlying directory with raw order `[b, a]` where `a` has
the older ctime, every ctime query succeeding. -/
def fsCtime : Fs :=
  { listing := .ok [("b", 2), ("a", 1)],
    ctime := fun p => if p = "/r/d/a" then .ok ⟨1, 0⟩ else .ok ⟨2, 5⟩ }

/-- A concrete underlying directory whose entry `a` vanishes between
enumeration and the ctime query: `lstat` on `/r/d/a` fails with `ENOENT`
(errno 2). -/
def fsLstatFail : Fs :=
  { listing := .ok [("a", 1), ("b", 2)],
    ctime := fun p => if p = "/r/d/a" then .error 2 else .ok ⟨5, 0⟩ }

/-- A concrete underlying directory whose two entries carry equal
captured ctimes, so the ctime comparator ties on them. -/
def fsTie : Fs :=
  { listing := .ok [("a", 1), ("b", 2)],
    ctime := fun _ => .ok ⟨7, 0⟩ }

/-- A configuration with ctime sorting active and reversal disabled. -/
def cfgCtimeSort : Disorderfs_config :=
  { sort_dirents := 1, sort_by_ctime := 1, reverse_dirents := 0 }

/-! Helper lemmas about the comparison relations. -/

theorem timespecLt_not_total (a b : Timespec) :
    ¬ timespecLt b a ∨ ¬ timespecLt a b := by
  unfold timespecLt; omega

theorem timespecLt_not_trans {a b c : Timespec}
    (hab : ¬ timespecLt b a) (hbc : ¬ timespecLt c b) : ¬ timespecLt c a := by
  unfold timespecLt at hab hbc ⊢; omega

instance : IsTotal Ctime_Dirent_pair (fun a b => ¬ compare_ctime_dirents b a) :=
  ⟨fun a b => timespecLt_not_total a.1 b.1⟩

instance : IsTrans Ctime_Dirent_pair (fun a b => ¬ compare_ctime_dirents b a) :=
  ⟨fun _ _ _ hab hbc => timespecLt_not_trans hab hbc⟩

theorem charsLt_asymm :
    ∀ {as bs : List Char}, charsLt as bs = true → charsLt bs as = true → False
  | [], [], h1, _ => by simp [charsLt] at h1
  | [], _ :: _, _, h2 => by simp [charsLt] at h2
  | _ :: _, [], h1, _ => by simp [charsLt] at h1
  | a :: as, b :: bs, h1, h2 => by
    unfold charsLt at h1 h2
    by_cases hab : a < b
    · rw [if_neg (lt_asymm hab), if_neg (ne_of_lt hab).symm] at h2
      simp at h2
    · by_cases heq : a = b
      · subst heq
        rw [if_neg hab, if_pos rfl] at h1 h2
        exact charsLt_asymm h1 h2
      · rw [if_neg hab, if_neg heq] at h1
        simp at h1

theorem charsLt_irrefl {as : List Char} (h : charsLt as as = true) : False :=
  charsLt_asymm h h

theorem charsLt_trans :
    ∀ {as bs cs : List Char}, charsLt as bs = true → charsLt bs cs = true →
      charsLt as cs = true
  | _, bs, [], _, h2 => by simp [charsLt] at h2
  | [], _ :: _, _ :: _, _, _ => by simp [charsLt]
  | _ :: _, [], _ :: _, h1, _ => by simp [charsLt] at h1
  | a :: as, b :: bs, c :: cs, h1, h2 => by
    unfold charsLt at h1 h2 ⊢
    by_cases hab : a < b
    · by_cases hbc : b < c
      · rw [if_pos (lt_trans hab hbc)]
      · by_cases hbc2 : b = c
        · subst hbc2; rw [if_pos hab]
        · rw [if_neg hbc, if_neg hbc2] at h2; simp at h2
    · by_cases hab2 : a = b
      · subst hab2
        by_cases hac : a < c
        · rw [if_pos hac]
        · by_cases hac2 : a = c
          · subst hac2
            rw [if_neg hac, if_pos rfl] at h1 h2 ⊢
            exact charsLt_trans h1 h2
          · rw [if_neg hac, if_neg hac2] at h2; simp at h2
      · rw [if_neg hab, if_neg hab2] at h1; simp at h1

theorem charsLt_trichotomy :
    ∀ (as bs : List Char), charsLt as bs = true ∨ as = bs ∨ charsLt bs as = true
  | [], [] => Or.inr (Or.inl rfl)
  | [], _ :: _ => Or.inl (by simp [charsLt])
  | _ :: _, [] => Or.inr (Or.inr (by simp [charsLt]))
  | a :: as, b :: bs => by
    unfold charsLt
    rcases lt_trichotomy a b with h | h | h
    · exact Or.inl (by rw [if_pos h])
    · subst h
      rcases charsLt_trichotomy as bs with h2 | h2 | h2
      · exact Or.inl (by rw [if_neg (lt_irrefl a), if_pos rfl]; exact h2)
      · exact Or.inr (Or.inl (by rw [h2]))
      · exact Or.inr (Or.inr (by rw [if_neg (lt_irrefl a), if_pos rfl]; exact h2))
    · exact Or.inr (Or.inr (by rw [if_pos h]))

theorem nameLt_asymm {a b : String} (h1 : nameLt a b) (h2 : nameLt b a) :
    False :=
  charsLt_asymm h1 h2

theorem nameLt_irrefl {a : String} (h : nameLt a a) : False :=
  charsLt_irrefl h

theorem nameLt_trans {a b c : String} (h1 : nameLt a b) (h2 : nameLt b c) :
    nameLt a c :=
  charsLt_trans h1 h2

theorem nameLt_trichotomy (a b : String) :
    nameLt a b ∨ a = b ∨ nameLt b a := by
  rcases charsLt_trichotomy a.data b.data with h | h | h
  · exact Or.inl h
  · refine Or.inr (Or.inl ?_)
    cases a; cases b; exact congrArg String.mk h
  · exact Or.inr (Or.inr h)

theorem direntLt_asymm {a b : Dirent} (h1 : direntLt a b)
    (h2 : direntLt b a) : False := by
  rcases h1 with h1 | ⟨e1, l1⟩ <;> rcases h2 with h2 | ⟨e2, l2⟩
  · exact nameLt_asymm h1 h2
  · exact nameLt_irrefl (by rw [e2] at h1; exact h1)
  · exact nameLt_irrefl (by rw [e1] at h2; exact h2)
  · omega

theorem not_direntLt_iff (a b : Dirent) :
    ¬ direntLt b a ↔ nameLt a.1 b.1 ∨ (a.1 = b.1 ∧ a.2 ≤ b.2) := by
  constructor
  · intro h
    rcases nameLt_trichotomy a.1 b.1 with h1 | h1 | h1
    · exact Or.inl h1
    · refine Or.inr ⟨h1, ?_⟩
      by_contra h2
      exact h (Or.inr ⟨h1.symm, by omega⟩)
    · exact absurd (Or.inl h1) h
  · rintro (h | ⟨heq, hle⟩) <;> intro contra
    · exact direntLt_asymm (Or.inl h) contra
    · rcases contra with c1 | ⟨e2, l2⟩
      · exact nameLt_irrefl (by rw [heq] at c1; exact c1)
      · omega

instance : IsTotal Dirent (fun a b => ¬ direntLt b a) := ⟨by
  intro a b
  by_cases h : direntLt b a
  · exact Or.inr (fun h2 => direntLt_asymm h2 h)
  · exact Or.inl h⟩

instance : IsTrans Dirent (fun a b => ¬ direntLt b a) := ⟨by
  intro a b c hab hbc
  rw [not_direntLt_iff] at hab hbc ⊢
  rcases hab with h1 | ⟨e1, l1⟩ <;> rcases hbc with h2 | ⟨e2, l2⟩
  · exact Or.inl (nameLt_trans h1 h2)
  · exact Or.inl (by rw [← e2]; exact h1)
  · exact Or.inl (by rw [e1]; exact h2)
  · exact Or.inr ⟨e1.trans e2, le_trans l1 l2⟩⟩

/-! Helper lemmas about the ctime capture phase. -/

theorem ctime_capture_fst (ctime : String → Except Nat Timespec)
    (dir : String) :
    ∀ (ds : Dirents) (e : Nat),
      (ctime_capture ctime dir ds e).1 =
        ds.map (fun d => (ctimeKey ctime dir d, d))
  | [], _ => rfl
  | d :: ds, e => by
    unfold ctime_capture ctimeKey
    cases h : ctime (dir ++ d.1) with
    | ok t => simp [h, ctime_capture_fst ctime dir ds e, ctimeKey]
    | error err => simp [h, ctime_capture_fst ctime dir ds err, ctimeKey]

theorem create_ctime_fst (ctime : String → Except Nat Timespec)
    (abspath : String) (ds : Dirents) (e : Nat) :
    (create_ctime_dirents_list ctime abspath ds e).1 =
      ds.map (fun d => (ctimeKey ctime (appendSlash abspath) d, d)) :=
  ctime_capture_fst ctime (appendSlash abspath) ds e

theorem overwrite_eq_map_snd (dirents : Dirents)
    (sorted_interim : List Ctime_Dirent_pair)
    (hlen : sorted_interim.length = dirents.length) :
    overwrite_dirents dirents sorted_interim =
      sorted_interim.map Prod.snd := by
  unfold overwrite_dirents
  rw [hlen, List.drop_length, List.append_nil]

theorem overwrite_cppSort_perm (ctime : String → Except Nat Timespec)
    (abspath : String) (raw : Dirents) (e : Nat) :
    (overwrite_dirents raw (cppSort compare_ctime_dirents
      (create_ctime_dirents_list ctime abspath raw e).1)).Perm raw := by
  have htmp := create_ctime_fst ctime abspath raw e
  set tmp := (create_ctime_dirents_list ctime abspath raw e).1 with htmpdef
  have hlen : (cppSort compare_ctime_dirents tmp).length = raw.length := by
    rw [cppSort, List.length_insertionSort, htmp, List.length_map]
  unfold overwrite_dirents
  rw [hlen, List.drop_length, List.append_nil]
  have hperm : (cppSort compare_ctime_dirents tmp).Perm tmp :=
    List.perm_insertionSort _ tmp
  have hsnd : tmp.map Prod.snd = raw := by
    rw [htmp, List.map_map]
    exact List.map_id' raw
  exact hsnd ▸ hperm.map Prod.snd

/-! Helper lemmas unfolding `sortPhase` and `opendir`. -/

theorem sortPhaseWith_no_sort
    (sortImpl : List Ctime_Dirent_pair → List Ctime_Dirent_pair)
    (cfg : Disorderfs_config)
    (ctime : String → Except Nat Timespec) (abspath : String) (raw : Dirents)
    (hs : cfg.sort_dirents = 0) :
    sortPhaseWith sortImpl cfg ctime abspath raw = (raw, [], 0) := by
  unfold sortPhaseWith; simp [hs]

theorem sortPhaseWith_name_sort
    (sortImpl : List Ctime_Dirent_pair → List Ctime_Dirent_pair)
    (cfg : Disorderfs_config)
    (ctime : String → Except Nat Timespec) (abspath : String) (raw : Dirents)
    (hs : cfg.sort_dirents ≠ 0) (hc : cfg.sort_by_ctime = 0) :
    sortPhaseWith sortImpl cfg ctime abspath raw =
      (cppSort direntLt raw, [], 0) := by
  unfold sortPhaseWith; simp [hs, hc]

theorem sortPhaseWith_ctime_sort
    (sortImpl : List Ctime_Dirent_pair → List Ctime_Dirent_pair)
    (cfg : Disorderfs_config)
    (ctime : String → Except Nat Timespec) (abspath : String) (raw : Dirents)
    (hs : cfg.sort_dirents ≠ 0) (hc : cfg.sort_by_ctime ≠ 0) :
    sortPhaseWith sortImpl cfg ctime abspath raw =
      (overwrite_dirents raw
        (sortImpl (create_ctime_dirents_list ctime abspath raw 0).1),
       (create_ctime_dirents_list ctime abspath raw 0).2.1,
       (create_ctime_dirents_list ctime abspath raw 0).2.2) := by
  unfold sortPhaseWith; simp [hs, hc]

theorem sortPhase_no_sort (cfg : Disorderfs_config)
    (ctime : String → Except Nat Timespec) (abspath : String) (raw : Dirents)
    (hs : cfg.sort_dirents = 0) :
    sortPhase cfg ctime abspath raw = (raw, [], 0) :=
  sortPhaseWith_no_sort (cppSort compare_ctime_dirents) cfg ctime abspath
    raw hs

theorem sortPhase_name_sort (cfg : Disorderfs_config)
    (ctime : String → Except Nat Timespec) (abspath : String) (raw : Dirents)
    (hs : cfg.sort_dirents ≠ 0) (hc : cfg.sort_by_ctime = 0) :
    sortPhase cfg ctime abspath raw = (cppSort direntLt raw, [], 0) :=
  sortPhaseWith_name_sort (cppSort compare_ctime_dirents) cfg ctime abspath
    raw hs hc

theorem sortPhase_ctime_sort (cfg : Disorderfs_config)
    (ctime : String → Except Nat Timespec) (abspath : String) (raw : Dirents)
    (hs : cfg.sort_dirents ≠ 0) (hc : cfg.sort_by_ctime ≠ 0) :
    sortPhase cfg ctime abspath raw =
      (overwrite_dirents raw (cppSort compare_ctime_dirents
        (create_ctime_dirents_list ctime abspath raw 0).1),
       (create_ctime_dirents_list ctime abspath raw 0).2.1,
       (create_ctime_dirents_list ctime abspath raw 0).2.2) :=
  sortPhaseWith_ctime_sort (cppSort compare_ctime_dirents) cfg ctime abspath
    raw hs hc

theorem sortPhase_perm (cfg : Disorderfs_config)
    (ctime : String → Except Nat Timespec) (abspath : String)
    (raw : Dirents) :
    (sortPhase cfg ctime abspath raw).1.Perm raw := by
  by_cases hs : cfg.sort_dirents = 0
  · rw [sortPhase_no_sort cfg ctime abspath raw hs]
  · by_cases hc : cfg.sort_by_ctime = 0
    · rw [sortPhase_name_sort cfg ctime abspath raw hs hc]
      exact List.perm_insertionSort _ raw
    · rw [sortPhase_ctime_sort cfg ctime abspath raw hs hc]
      exact overwrite_cppSort_perm ctime abspath raw 0

theorem opendirWith_ok_elim
    (sortImpl : List Ctime_Dirent_pair → List Ctime_Dirent_pair)
    {cfg : Disorderfs_config} {fs : Fs}
    {root path : String} {raw snap : Dirents} {warns : List String}
    (hraw : fs.listing = .ok raw)
    (hopen : opendirWith sortImpl cfg fs root path = .ok (snap, warns)) :
    (sortPhaseWith sortImpl cfg fs.ctime (root ++ path) raw).2.2 = 0 ∧
    snap = (if cfg.reverse_dirents ≠ 0
      then (sortPhaseWith sortImpl cfg fs.ctime (root ++ path) raw).1.reverse
      else (sortPhaseWith sortImpl cfg fs.ctime (root ++ path) raw).1) ∧
    warns = (sortPhaseWith sortImpl cfg fs.ctime (root ++ path) raw).2.1 := by
  unfold opendirWith at hopen
  rw [hraw] at hopen
  dsimp only at hopen
  by_cases he :
      (sortPhaseWith sortImpl cfg fs.ctime (root ++ path) raw).2.2 = 0
  · rw [if_neg (by simp [he])] at hopen
    simp only [Except.ok.injEq, Prod.mk.injEq] at hopen
    exact ⟨he, hopen.1.symm, hopen.2.symm⟩
  · rw [if_pos he] at hopen
    simp at hopen

theorem opendir_ok_elim {cfg : Disorderfs_config} {fs : Fs}
    {root path : String} {raw snap : Dirents} {warns : List String}
    (hraw : fs.listing = .ok raw)
    (hopen : opendir cfg fs root path = .ok (snap, warns)) :
    (sortPhase cfg fs.ctime (root ++ path) raw).2.2 = 0 ∧
    snap = (if cfg.reverse_dirents ≠ 0
      then (sortPhase cfg fs.ctime (root ++ path) raw).1.reverse
      else (sortPhase cfg fs.ctime (root ++ path) raw).1) ∧
    warns = (sortPhase cfg fs.ctime (root ++ path) raw).2.1 :=
  opendirWith_ok_elim (cppSort compare_ctime_dirents) hraw hopen

theorem opendir_ok_perm {cfg : Disorderfs_config} {fs : Fs}
    {root path : String} {raw snap : Dirents} {warns : List String}
    (hraw : fs.listing = .ok raw)
    (hopen : opendir cfg fs root path = .ok (snap, warns)) :
    snap.Perm raw := by
  obtain ⟨-, hsnap, -⟩ := opendir_ok_elim hraw hopen
  rw [hsnap]
  by_cases hr : cfg.reverse_dirents ≠ 0
  · rw [if_pos hr]
    exact (List.reverse_perm _).trans
      (sortPhase_perm cfg fs.ctime (root ++ path) raw)
  · rw [if_neg hr]
    exact sortPhase_perm cfg fs.ctime (root ++ path) raw

/-! Helper lemmas about the filler loop and `readdir`. -/

theorem readdir_state (cfg : Disorderfs_config) (shuffle : Dirents → Dirents)
    (sink : Nat → Bool) (dirents : Dirents) :
    (readdir cfg shuffle sink dirents).state =
      direntsAfterShuffle cfg shuffle dirents := rfl

theorem readdir_delivered (cfg : Disorderfs_config)
    (shuffle : Dirents → Dirents) (sink : Nat → Bool) (dirents : Dirents) :
    (readdir cfg shuffle sink dirents).delivered =
      (fill sink (direntsAfterShuffle cfg shuffle dirents) 0).2 := rfl

theorem readdir_ret (cfg : Disorderfs_config) (shuffle : Dirents → Dirents)
    (sink : Nat → Bool) (dirents : Dirents) :
    (readdir cfg shuffle sink dirents).ret =
      if (fill sink (direntsAfterShuffle cfg shuffle dirents) 0).1
      then 0 else -ENOMEM := rfl

theorem direntsAfterShuffle_no_shuffle (cfg : Disorderfs_config)
    (shuffle : Dirents → Dirents) (dirents : Dirents)
    (hsh : cfg.shuffle_dirents = 0) :
    direntsAfterShuffle cfg shuffle dirents = dirents := by
  unfold direntsAfterShuffle
  rw [if_neg (by simp [hsh])]

theorem direntsAfterShuffle_perm (cfg : Disorderfs_config)
    (shuffle : Dirents → Dirents) (dirents : Dirents)
    (hshuf : (shuffle dirents).Perm dirents) :
    (direntsAfterShuffle cfg shuffle dirents).Perm dirents := by
  unfold direntsAfterShuffle
  by_cases hsh : cfg.shuffle_dirents ≠ 0
  · rw [if_pos hsh]; exact hshuf
  · rw [if_neg hsh]

theorem fill_all_true (l : Dirents) (i : Nat) :
    fill (fun _ => true) l i = (true, l) := by
  induction l generalizing i with
  | nil => rfl
  | cons d ds ih => simp [fill, ih]

theorem fill_fst_true_delivered (sink : Nat → Bool) :
    ∀ (l : Dirents) (i : Nat),
      (fill sink l i).1 = true → (fill sink l i).2 = l
  | [], _, _ => rfl
  | d :: ds, i, h => by
    unfold fill at h ⊢
    cases hs : sink i with
    | false =>
      rw [hs, if_neg (by simp)] at h
      simp at h
    | true =>
      rw [hs] at h
      rw [if_pos rfl] at h ⊢
      rw [fill_fst_true_delivered sink ds (i + 1) h]

theorem fill_fst_false_iff (sink : Nat → Bool) :
    ∀ (l : Dirents) (i : Nat),
      (fill sink l i).1 = false ↔
        ∃ j, j < l.length ∧ (∀ m, m < j → sink (i + m) = true) ∧
          sink (i + j) = false
  | [], i => by simp [fill]
  | d :: ds, i => by
    unfold fill
    cases hs : sink i with
    | false =>
      rw [if_neg (by simp)]
      constructor
      · intro _
        exact ⟨0, by simp, fun m hm => absurd hm (Nat.not_lt_zero m),
          by simpa using hs⟩
      · intro _; rfl
    | true =>
      rw [if_pos rfl]
      constructor
      · intro h
        obtain ⟨j, hj, hall, hjf⟩ :=
          (fill_fst_false_iff sink ds (i + 1)).mp h
        refine ⟨j + 1, by simpa using hj, ?_, by
          have he : i + (j + 1) = i + 1 + j := by omega
          rw [he]; exact hjf⟩
        intro m hm
        cases m with
        | zero => simpa using hs
        | succ m' =>
          have he : i + (m' + 1) = i + 1 + m' := by omega
          rw [he]; exact hall m' (by omega)
      · rintro ⟨j, hj, hall, hjf⟩
        cases j with
        | zero =>
          rw [Nat.add_zero] at hjf
          rw [hs] at hjf; cases hjf
        | succ j' =>
          refine (fill_fst_false_iff sink ds (i + 1)).mpr
            ⟨j', by simpa using hj, ?_, ?_⟩
          · intro m hm
            have he : i + 1 + m = i + (m + 1) := by omega
            rw [he]; exact hall (m + 1) (by omega)
          · have he : i + 1 + j' = i + (j' + 1) := by omega
            rw [he]; exact hjf

theorem readdir_ret_zero_delivered (cfg : Disorderfs_config)
    (shuffle : Dirents → Dirents) (sink : Nat → Bool) (dirents : Dirents)
    (hret : (readdir cfg shuffle sink dirents).ret = 0) :
    (readdir cfg shuffle sink dirents).delivered =
      (readdir cfg shuffle sink dirents).state := by
  have hfst : (fill sink (direntsAfterShuffle cfg shuffle dirents) 0).1 = true := by
    by_contra hne
    rw [Bool.not_eq_true] at hne
    rw [readdir_ret, hne, if_neg (by simp)] at hret
    simp [ENOMEM] at hret
  rw [readdir_delivered, readdir_state]
  exact fill_fst_true_delivered sink _ 0 hfst

/-! Session-level invariant. -/

theorem runSession_perm (cfg : Disorderfs_config)
    (σ : Nat → Dirents → Dirents) (hσ : ∀ k l, (σ k l).Perm l) :
    ∀ (sinks : List (Nat → Bool)) (k : Nat) (st raw : Dirents),
      st.Perm raw →
      ∀ out ∈ runSession cfg σ sinks k st,
        out.state.Perm raw ∧ (out.ret = 0 → out.delivered.Perm raw)
  | [], _, _, _, _, out, hmem => by simp [runSession] at hmem
  | s :: rest, k, st, raw, hperm, out, hmem => by
    simp only [runSession, List.mem_cons] at hmem
    have hstate : (readdir cfg (σ k) s st).state.Perm raw := by
      rw [readdir_state]
      exact (direntsAfterShuffle_perm cfg (σ k) st (hσ k st)).trans hperm
    rcases hmem with hmem | hmem
    · subst hmem
      refine ⟨hstate, fun hret => ?_⟩
      rw [readdir_ret_zero_delivered cfg (σ k) s st hret]
      exact hstate
    · exact runSession_perm cfg σ hσ rest (k + 1)
        (readdir cfg (σ k) s st).state raw hstate out hmem

/-! Claim theorems. -/

/-- C1: for every directory session and every configuration of the
reordering flags, provided each per-call shuffle output is a permutation
of its input, the snapshot built at open time is a permutation of the raw
entries captured from the underlying filesystem, every later `readdir`
state of the session stays one, and the entries a successful `readdir`
call delivers are a permutation of that captured multiset — sort, reverse
and shuffle never add, remove, duplicate or alter an entry. -/
theorem C1_enumeration_is_permutation (cfg : Disorderfs_config) (fs : Fs)
    (root path : String) (raw snap : Dirents) (warns : List String)
    (σ : Nat → Dirents → Dirents) (hσ : ∀ k l, (σ k l).Perm l)
    (sinks : List (Nat → Bool))
    (hraw : fs.listing = .ok raw)
    (hopen : opendir cfg fs root path = .ok (snap, warns)) :
    snap.Perm raw ∧
    ∀ out ∈ runSession cfg σ sinks 0 snap,
      out.state.Perm raw ∧ (out.ret = 0 → out.delivered.Perm raw) := by
  have hperm := opendir_ok_perm hraw hopen
  exact ⟨hperm, runSession_perm cfg σ hσ sinks 0 snap raw hperm⟩

/-- Witness for C1: a shuffling configuration (with the default reversal
still on) over the concrete directory `[c, a, b]`, reversal as the shuffle
oracle, and a two-call session. -/
theorem C1_enumeration_is_permutation_witness :
    ([("b", 2), ("a", 1), ("c", 3)] : Dirents).Perm
      [("c", 3), ("a", 1), ("b", 2)] ∧
    ∀ out ∈ runSession { shuffle_dirents := 1 } (fun _ l => l.reverse)
        [fun _ => true, fun _ => true] 0 [("b", 2), ("a", 1), ("c", 3)],
      out.state.Perm [("c", 3), ("a", 1), ("b", 2)] ∧
        (out.ret = 0 →
          out.delivered.Perm [("c", 3), ("a", 1), ("b", 2)]) :=
  C1_enumeration_is_permutation { shuffle_dirents := 1 } fsCAB "/r" "/d"
    [("c", 3), ("a", 1), ("b", 2)] [("b", 2), ("a", 1), ("c", 3)] []
    (fun _ l => l.reverse) (fun _ l => l.reverse_perm)
    [fun _ => true, fun _ => true] rfl (by decide)

/-- C2 (code bug): with ctime sorting active and `lstat` failing for one
entry among two, the capture phase does substitute the `{0s, 0ns}`
sentinel for that entry and does record the warning — but `opendir`
nevertheless fails, returning `-ENOENT`: the failed `lstat` leaves `errno`
set, and the `errno != 0` check placed after `closedir` turns it into an
error return, so no valid handle is produced. -/
theorem C2_lstat_failure_aborts_open :
    (create_ctime_dirents_list fsLstatFail.ctime "/r/d"
        [("a", 1), ("b", 2)] 0).1 =
      [(INVALID, ("a", 1)), (⟨5, 0⟩, ("b", 2))] ∧
    (create_ctime_dirents_list fsLstatFail.ctime "/r/d"
        [("a", 1), ("b", 2)] 0).2.1 = ["/r/d/a"] ∧
    opendir cfgCtimeSort fsLstatFail "/r" "/d" = .error (-2) := by
  decide

/-- C3: the privilege separation guard is active only when `multi_user` is
enabled and the process runs with real uid 0 — otherwise acquire and
release are no-ops on the thread credentials — and, when active with no
primitive failing, acquire switches the supplementary groups, then the
effective gid, then the effective uid to the caller's identity, in that
order, while release restores the effective uid to 0, then the effective
gid to 0, then clears the supplementary groups, in that order. -/
theorem C3_guard_activation_and_order (cfg : Disorderfs_config)
    (procUid : Nat) (fail : CredCall → Bool) (groups : List Nat)
    (ctx : FuseContext) (c : Creds) :
    (¬ (cfg.multi_user ≠ 0 ∧ procUid = 0) →
      guardAcquire cfg procUid fail groups ctx c = ([], .ok c) ∧
      guardRelease cfg procUid fail c = ([], .ok c)) ∧
    ((cfg.multi_user ≠ 0 ∧ procUid = 0) → (∀ op, fail op = false) →
      guardAcquire cfg procUid fail groups ctx c =
        ([.setgroups groups, .setegid ctx.gid, .seteuid ctx.uid],
          .ok { groups := groups, egid := ctx.gid, euid := ctx.uid }) ∧
      guardRelease cfg procUid fail c =
        ([.seteuid 0, .setegid 0, .setgroups []],
          .ok { groups := [], egid := 0, euid := 0 })) := by
  constructor
  · intro h
    unfold guardAcquire guardRelease
    rw [if_neg h, if_neg h]
    exact ⟨rfl, rfl⟩
  · intro h hfail
    unfold guardAcquire guardRelease drop_privileges restore_privileges
    rw [if_pos h, if_pos h]
    simp [hfail]

/-- Witness for C3: an active guard (multi-user, real uid 0, no primitive
failing) for caller uid 42 / gid 43 with supplementary group 7, and an
inactive one (multi-user off, real uid 1000). -/
theorem C3_guard_activation_and_order_witness :
    (guardAcquire { multi_user := 1 } 0 (fun _ => false) [7] ⟨42, 43⟩
        ⟨[], 0, 0⟩ =
      ([.setgroups [7], .setegid 43, .seteuid 42],
        .ok { groups := [7], egid := 43, euid := 42 }) ∧
    guardRelease { multi_user := 1 } 0 (fun _ => false) ⟨[7], 43, 42⟩ =
      ([.seteuid 0, .setegid 0, .setgroups []],
        .ok { groups := [], egid := 0, euid := 0 })) ∧
    (guardAcquire {} 1000 (fun _ => false) [7] ⟨42, 43⟩ ⟨[], 0, 0⟩ =
        ([], .ok ⟨[], 0, 0⟩) ∧
    guardRelease {} 1000 (fun _ => false) ⟨[], 0, 0⟩ =
        ([], .ok ⟨[], 0, 0⟩)) :=
  ⟨⟨((C3_guard_activation_and_order { multi_user := 1 } 0 (fun _ => false)
        [7] ⟨42, 43⟩ ⟨[], 0, 0⟩).2 (by decide) (fun _ => rfl)).1,
    ((C3_guard_activation_and_order { multi_user := 1 } 0 (fun _ => false)
        [7] ⟨42, 43⟩ ⟨[7], 43, 42⟩).2 (by decide) (fun _ => rfl)).2⟩,
   ⟨((C3_guard_activation_and_order {} 1000 (fun _ => false)
        [7] ⟨42, 43⟩ ⟨[], 0, 0⟩).1 (by decide)).1,
    ((C3_guard_activation_and_order {} 1000 (fun _ => false)
        [7] ⟨42, 43⟩ ⟨[], 0, 0⟩).1 (by decide)).2⟩⟩

/-- C4: on both the acquire and the release path of the guard, the routine
returns successfully exactly when every credential-change primitive it
attempted succeeded; whenever an attempted primitive fails the whole
process is aborted through `perror_and_die`, so no credential-change
failure is ever returned to the caller as an error code or silently
ignored. -/
theorem C4_cred_failure_is_fatal (cfg : Disorderfs_config) (procUid : Nat)
    (fail : CredCall → Bool) (groups : List Nat) (ctx : FuseContext)
    (c : Creds) :
    ((∃ op ∈ (guardAcquire cfg procUid fail groups ctx c).1,
        fail op = true) →
      ∃ msg, (guardAcquire cfg procUid fail groups ctx c).2 =
        .aborted msg) ∧
    (∀ c', (guardAcquire cfg procUid fail groups ctx c).2 = .ok c' →
      ∀ op ∈ (guardAcquire cfg procUid fail groups ctx c).1,
        fail op = false) ∧
    ((∃ op ∈ (guardRelease cfg procUid fail c).1, fail op = true) →
      ∃ msg, (guardRelease cfg procUid fail c).2 = .aborted msg) ∧
    (∀ c', (guardRelease cfg procUid fail c).2 = .ok c' →
      ∀ op ∈ (guardRelease cfg procUid fail c).1, fail op = false) := by
  unfold guardAcquire guardRelease drop_privileges restore_privileges
  by_cases h : cfg.multi_user ≠ 0 ∧ procUid = 0
  · rw [if_pos h, if_pos h]
    split_ifs with h1 h2 h3 h4 h5 h6 <;> simp_all
  · rw [if_neg h, if_neg h]
    simp

/-- Witness for C4: a primitive failure (setegid refusing) on an active
acquire path aborts the process. -/
theorem C4_cred_failure_is_fatal_witness :
    ∃ msg, (guardAcquire { multi_user := 1 } 0
      (fun op => decide (op = .setegid 43)) [7] ⟨42, 43⟩ ⟨[], 0, 0⟩).2 =
        .aborted msg :=
  (C4_cred_failure_is_fatal { multi_user := 1 } 0
    (fun op => decide (op = .setegid 43)) [7] ⟨42, 43⟩ ⟨[], 0, 0⟩).1
    (by decide)

/-- The concrete conforming sort satisfies the `std::sort` contract for
the ctime comparator on every input. -/
theorem cppSort_ctime_spec :
    ∀ l, StdSortSpec compare_ctime_dirents l
      (cppSort compare_ctime_dirents l) :=
  fun l => ⟨List.perm_insertionSort _ l, List.sorted_insertionSort _ l⟩

/-- C5 (amended): with ctime sorting active (and reversal and shuffling
off), open performs the two-phase sort: the capture phase pairs each
entry with the result of a single per-entry ctime query before any
comparison takes place, the keyed sequence is then sorted purely by the
captured timestamps — the order among entries with equal captured
timestamps being unspecified, the theorem quantifies over every sort
behaviour satisfying the `std::sort` contract — and the timestamps
discarded, so the snapshot, and hence the enumerate output, is
non-decreasing by captured change-time and identical across repeated
enumerate calls of the session. -/
theorem C5_ctime_two_phase_sort
    (sortImpl : List Ctime_Dirent_pair → List Ctime_Dirent_pair)
    (himpl : ∀ l, StdSortSpec compare_ctime_dirents l (sortImpl l))
    (cfg : Disorderfs_config) (fs : Fs)
    (root path : String) (raw snap : Dirents) (warns : List String)
    (hs : cfg.sort_dirents ≠ 0) (hc : cfg.sort_by_ctime ≠ 0)
    (hrev : cfg.reverse_dirents = 0) (hsh : cfg.shuffle_dirents = 0)
    (hraw : fs.listing = .ok raw)
    (hopen : opendirWith sortImpl cfg fs root path = .ok (snap, warns)) :
    (create_ctime_dirents_list fs.ctime (root ++ path) raw 0).1 =
      raw.map (fun d =>
        (ctimeKey fs.ctime (appendSlash (root ++ path)) d, d)) ∧
    snap = (sortImpl
      (create_ctime_dirents_list fs.ctime (root ++ path) raw 0).1).map
        Prod.snd ∧
    snap.Pairwise (fun a b =>
      ¬ timespecLt (ctimeKey fs.ctime (appendSlash (root ++ path)) b)
        (ctimeKey fs.ctime (appendSlash (root ++ path)) a)) ∧
    (∀ shuffle sink, (readdir cfg shuffle sink snap).state = snap ∧
      ((readdir cfg shuffle sink snap).ret = 0 →
        (readdir cfg shuffle sink snap).delivered = snap)) := by
  obtain ⟨-, hsnap, -⟩ := opendirWith_ok_elim sortImpl hraw hopen
  rw [if_neg (by simp [hrev]),
    sortPhaseWith_ctime_sort sortImpl cfg fs.ctime (root ++ path) raw hs hc]
    at hsnap
  have hlen : (sortImpl
      (create_ctime_dirents_list fs.ctime (root ++ path) raw 0).1).length =
      raw.length := by
    rw [(himpl _).1.length_eq, create_ctime_fst, List.length_map]
  have hsnap2 : snap = (sortImpl
      (create_ctime_dirents_list fs.ctime (root ++ path) raw 0).1).map
        Prod.snd := by
    rw [hsnap]
    exact overwrite_eq_map_snd raw _ hlen
  refine ⟨create_ctime_fst fs.ctime (root ++ path) raw 0, hsnap2, ?_, ?_⟩
  · have hsorted := (himpl
      (create_ctime_dirents_list fs.ctime (root ++ path) raw 0).1).2
    have hkey : ∀ p ∈ sortImpl
        (create_ctime_dirents_list fs.ctime (root ++ path) raw 0).1,
        p.1 = ctimeKey fs.ctime (appendSlash (root ++ path)) p.2 := by
      intro p hp
      have hmem : p ∈
          (create_ctime_dirents_list fs.ctime (root ++ path) raw 0).1 :=
        (himpl _).1.mem_iff.mp hp
      rw [create_ctime_fst] at hmem
      obtain ⟨d, -, heq⟩ := List.mem_map.mp hmem
      rw [← heq]
    have hpair : (sortImpl
        (create_ctime_dirents_list fs.ctime (root ++ path) raw 0).1).Pairwise
        (fun p q => ¬ timespecLt
          (ctimeKey fs.ctime (appendSlash (root ++ path)) q.2)
          (ctimeKey fs.ctime (appendSlash (root ++ path)) p.2)) :=
      List.Pairwise.imp_of_mem (fun {a b} ha hb hr => by
        rw [← hkey a ha, ← hkey b hb]
        exact hr) hsorted
    rw [hsnap2]
    exact List.pairwise_map.mpr hpair
  · intro shuffle sink
    have h1 : (readdir cfg shuffle sink snap).state = snap := by
      rw [readdir_state, direntsAfterShuffle_no_shuffle cfg shuffle snap hsh]
    exact ⟨h1, fun hret =>
      (readdir_ret_zero_delivered cfg shuffle sink snap hret).trans h1⟩

/-- Counterexample for C5 as originally stated ("stable-sorts the keyed
sequence"): on a directory whose two entries carry equal captured ctimes,
reversing the keyed list satisfies the `std::sort` contract just as the
order-preserving sort does, yet the two conforming behaviours yield
different snapshots — `[b, a]` versus the stable order `[a, b]` — so the
code does not guarantee the stable tie order the claim asserts. -/
theorem C5_ctime_sort_not_stable :
    StdSortSpec compare_ctime_dirents
      (create_ctime_dirents_list fsTie.ctime ("/r" ++ "/d")
        [("a", 1), ("b", 2)] 0).1
      ((create_ctime_dirents_list fsTie.ctime ("/r" ++ "/d")
        [("a", 1), ("b", 2)] 0).1.reverse) ∧
    opendirWith (fun l => l.reverse) cfgCtimeSort fsTie "/r" "/d" =
      .ok ([("b", 2), ("a", 1)], []) ∧
    opendirWith (cppSort compare_ctime_dirents) cfgCtimeSort fsTie
      "/r" "/d" = .ok ([("a", 1), ("b", 2)], []) ∧
    ([("b", 2), ("a", 1)] : Dirents) ≠ [("a", 1), ("b", 2)] := by
  exact ⟨⟨List.reverse_perm _, by decide⟩, by decide, by decide, by decide⟩

/-- Witness for C5: the concrete directory `[b, a]` where `a` carries the
older captured ctime, sorted to `[a, b]` at open by the concrete
conforming sort. -/
theorem C5_ctime_two_phase_sort_witness :
    (create_ctime_dirents_list fsCtime.ctime ("/r" ++ "/d")
        [("b", 2), ("a", 1)] 0).1 =
      ([("b", 2), ("a", 1)] : Dirents).map (fun d =>
        (ctimeKey fsCtime.ctime (appendSlash ("/r" ++ "/d")) d, d)) ∧
    ([("a", 1), ("b", 2)] : Dirents) = (cppSort compare_ctime_dirents
      (create_ctime_dirents_list fsCtime.ctime ("/r" ++ "/d")
        [("b", 2), ("a", 1)] 0).1).map Prod.snd ∧
    ([("a", 1), ("b", 2)] : Dirents).Pairwise (fun a b =>
      ¬ timespecLt (ctimeKey fsCtime.ctime (appendSlash ("/r" ++ "/d")) b)
        (ctimeKey fsCtime.ctime (appendSlash ("/r" ++ "/d")) a)) ∧
    (∀ shuffle sink,
      (readdir cfgCtimeSort shuffle sink [("a", 1), ("b", 2)]).state =
        [("a", 1), ("b", 2)] ∧
      ((readdir cfgCtimeSort shuffle sink [("a", 1), ("b", 2)]).ret = 0 →
        (readdir cfgCtimeSort shuffle sink [("a", 1), ("b", 2)]).delivered =
          [("a", 1), ("b", 2)])) :=
  C5_ctime_two_phase_sort (cppSort compare_ctime_dirents)
    cppSort_ctime_spec cfgCtimeSort fsCtime "/r" "/d"
    [("b", 2), ("a", 1)] [("a", 1), ("b", 2)] []
    (by decide) (by decide) rfl rfl rfl (by decide)

/-- C6: with alphabetic sorting enabled and ctime sorting disabled (and
reversal and shuffling off), the snapshot is the entry list sorted by the
pair comparison at open time: it is a permutation of the raw entries,
alphabetically non-decreasing by name, and identical across repeated
enumerate calls of the session. -/
theorem C6_alphabetic_sort (cfg : Disorderfs_config) (fs : Fs)
    (root path : String) (raw snap : Dirents) (warns : List String)
    (hs : cfg.sort_dirents ≠ 0) (hc : cfg.sort_by_ctime = 0)
    (hrev : cfg.reverse_dirents = 0) (hsh : cfg.shuffle_dirents = 0)
    (hraw : fs.listing = .ok raw)
    (hopen : opendir cfg fs root path = .ok (snap, warns)) :
    snap = cppSort direntLt raw ∧
    snap.Perm raw ∧
    snap.Pairwise (fun a b => ¬ nameLt b.1 a.1) ∧
    (∀ shuffle sink, (readdir cfg shuffle sink snap).state = snap ∧
      ((readdir cfg shuffle sink snap).ret = 0 →
        (readdir cfg shuffle sink snap).delivered = snap)) := by
  obtain ⟨-, hsnap, -⟩ := opendir_ok_elim hraw hopen
  rw [if_neg (by simp [hrev]),
    sortPhase_name_sort cfg fs.ctime (root ++ path) raw hs hc] at hsnap
  have hsnap2 : snap = cppSort direntLt raw := hsnap
  refine ⟨hsnap2, ?_, ?_, ?_⟩
  · rw [hsnap2]
    exact List.perm_insertionSort _ raw
  · have hsorted : List.Sorted (fun a b : Dirent => ¬ direntLt b a)
        (cppSort direntLt raw) := List.sorted_insertionSort _ raw
    rw [hsnap2]
    exact hsorted.imp (fun hab hlt => hab (Or.inl hlt))
  · intro shuffle sink
    have h1 : (readdir cfg shuffle sink snap).state = snap := by
      rw [readdir_state, direntsAfterShuffle_no_shuffle cfg shuffle snap hsh]
    exact ⟨h1, fun hret =>
      (readdir_ret_zero_delivered cfg shuffle sink snap hret).trans h1⟩

/-- Witness for C6: the concrete directory `[c, a, b]` sorted to
`[a, b, c]` at open. -/
theorem C6_alphabetic_sort_witness :
    ([("a", 1), ("b", 2), ("c", 3)] : Dirents) =
      cppSort direntLt [("c", 3), ("a", 1), ("b", 2)] ∧
    ([("a", 1), ("b", 2), ("c", 3)] : Dirents).Perm
      [("c", 3), ("a", 1), ("b", 2)] ∧
    ([("a", 1), ("b", 2), ("c", 3)] : Dirents).Pairwise
      (fun a b => ¬ nameLt b.1 a.1) ∧
    (∀ shuffle sink,
      (readdir { sort_dirents := 1, reverse_dirents := 0 } shuffle sink
        [("a", 1), ("b", 2), ("c", 3)]).state =
          [("a", 1), ("b", 2), ("c", 3)] ∧
      ((readdir { sort_dirents := 1, reverse_dirents := 0 } shuffle sink
          [("a", 1), ("b", 2), ("c", 3)]).ret = 0 →
        (readdir { sort_dirents := 1, reverse_dirents := 0 } shuffle sink
          [("a", 1), ("b", 2), ("c", 3)]).delivered =
            [("a", 1), ("b", 2), ("c", 3)])) :=
  C6_alphabetic_sort { sort_dirents := 1, reverse_dirents := 0 } fsCAB
    "/r" "/d" [("c", 3), ("a", 1), ("b", 2)] [("a", 1), ("b", 2), ("c", 3)]
    [] (by decide) rfl rfl rfl rfl (by decide)

/-- C7: with reversal enabled and no sort, the snapshot is the exact
reverse of the raw underlying enumeration order; with a sort also active
— alphabetic, or ctime (where the theorem quantifies over every sort
behaviour satisfying the `std::sort` contract) — the reversal is applied
exactly once, after the sort step; and on the concrete raw order
`[c, a, b]`: all reordering disabled yields `[c, a, b]`, alphabetic sort
alone yields `[a, b, c]`, and alphabetic sort plus reversal yields
`[c, b, a]`. -/
theorem C7_reverse_after_sort :
    (∀ (cfg : Disorderfs_config) (fs : Fs) (root path : String)
        (raw snap : Dirents) (warns : List String),
      cfg.sort_dirents = 0 → cfg.reverse_dirents ≠ 0 →
      fs.listing = .ok raw →
      opendir cfg fs root path = .ok (snap, warns) →
      snap = raw.reverse) ∧
    (∀ (cfg : Disorderfs_config) (fs : Fs) (root path : String)
        (raw snap : Dirents) (warns : List String),
      cfg.sort_dirents ≠ 0 → cfg.sort_by_ctime = 0 →
      cfg.reverse_dirents ≠ 0 →
      fs.listing = .ok raw →
      opendir cfg fs root path = .ok (snap, warns) →
      snap = (cppSort direntLt raw).reverse) ∧
    (∀ (sortImpl : List Ctime_Dirent_pair → List Ctime_Dirent_pair)
        (cfg : Disorderfs_config) (fs : Fs) (root path : String)
        (raw snap : Dirents) (warns : List String),
      (∀ l, StdSortSpec compare_ctime_dirents l (sortImpl l)) →
      cfg.sort_dirents ≠ 0 → cfg.sort_by_ctime ≠ 0 →
      cfg.reverse_dirents ≠ 0 →
      fs.listing = .ok raw →
      opendirWith sortImpl cfg fs root path = .ok (snap, warns) →
      snap = ((sortImpl (create_ctime_dirents_list fs.ctime (root ++ path)
        raw 0).1).map Prod.snd).reverse) ∧
    opendir { reverse_dirents := 0 } fsCAB "/r" "/d" =
      .ok ([("c", 3), ("a", 1), ("b", 2)], []) ∧
    opendir { reverse_dirents := 0, sort_dirents := 1 } fsCAB "/r" "/d" =
      .ok ([("a", 1), ("b", 2), ("c", 3)], []) ∧
    opendir { sort_dirents := 1 } fsCAB "/r" "/d" =
      .ok ([("c", 3), ("b", 2), ("a", 1)], []) := by
  refine ⟨?_, ?_, ?_, by decide, by decide, by decide⟩
  · intro cfg fs root path raw snap warns hs hr hraw hopen
    obtain ⟨-, hsnap, -⟩ := opendir_ok_elim hraw hopen
    rw [sortPhase_no_sort cfg fs.ctime (root ++ path) raw hs,
      if_pos hr] at hsnap
    exact hsnap
  · intro cfg fs root path raw snap warns hs hc hr hraw hopen
    obtain ⟨-, hsnap, -⟩ := opendir_ok_elim hraw hopen
    rw [sortPhase_name_sort cfg fs.ctime (root ++ path) raw hs hc,
      if_pos hr] at hsnap
    exact hsnap
  · intro sortImpl cfg fs root path raw snap warns himpl hs hc hr hraw hopen
    obtain ⟨-, hsnap, -⟩ := opendirWith_ok_elim sortImpl hraw hopen
    have hlen : (sortImpl (create_ctime_dirents_list fs.ctime (root ++ path)
        raw 0).1).length = raw.length := by
      rw [(himpl _).1.length_eq, create_ctime_fst, List.length_map]
    rw [sortPhaseWith_ctime_sort sortImpl cfg fs.ctime (root ++ path) raw
      hs hc, if_pos hr] at hsnap
    rw [hsnap, overwrite_eq_map_snd raw _ hlen]

/-- Witness for C7: the three general conjuncts applied concretely — the
directory `[c, a, b]` under the default configuration (reversal only) and
under alphabetic sort plus reversal, and the directory `[b, a]` under
ctime sort plus reversal with the concrete conforming sort. -/
theorem C7_reverse_after_sort_witness :
    ([("b", 2), ("a", 1), ("c", 3)] : Dirents) =
      ([("c", 3), ("a", 1), ("b", 2)] : Dirents).reverse ∧
    ([("c", 3), ("b", 2), ("a", 1)] : Dirents) =
      (cppSort direntLt [("c", 3), ("a", 1), ("b", 2)]).reverse ∧
    ([("b", 2), ("a", 1)] : Dirents) =
      ((cppSort compare_ctime_dirents (create_ctime_dirents_list
        fsCtime.ctime ("/r" ++ "/d") [("b", 2), ("a", 1)] 0).1).map
          Prod.snd).reverse :=
  ⟨C7_reverse_after_sort.1 {} fsCAB "/r" "/d"
      [("c", 3), ("a", 1), ("b", 2)] [("b", 2), ("a", 1), ("c", 3)] []
      rfl (by decide) rfl (by decide),
   C7_reverse_after_sort.2.1 { sort_dirents := 1 } fsCAB "/r" "/d"
      [("c", 3), ("a", 1), ("b", 2)] [("c", 3), ("b", 2), ("a", 1)] []
      (by decide) rfl (by decide) rfl (by decide),
   C7_reverse_after_sort.2.2.1 (cppSort compare_ctime_dirents)
      { sort_dirents := 1, sort_by_ctime := 1 } fsCtime "/r" "/d"
      [("b", 2), ("a", 1)] [("b", 2), ("a", 1)] []
      cppSort_ctime_spec (by decide) (by decide) (by decide) rfl
      (by decide)⟩

/-- C9: one enumerate call either succeeds (returns 0) or returns exactly
`-ENOMEM`; it returns `-ENOMEM` precisely when the sink refuses one of the
offered entries; even then the handle's dirents remain the same multiset,
a retried enumerate with an accepting sink succeeds and delivers that
whole multiset, and `releasedir` still succeeds. -/
theorem C9_sink_refusal_enomem (cfg : Disorderfs_config)
    (σ σ2 : Dirents → Dirents) (sink : Nat → Bool) (st : Dirents)
    (hσ : ∀ l, (σ l).Perm l) (hσ2 : ∀ l, (σ2 l).Perm l) :
    ((readdir cfg σ sink st).ret = 0 ∨
      (readdir cfg σ sink st).ret = -ENOMEM) ∧
    ((readdir cfg σ sink st).ret = -ENOMEM ↔
      ∃ j, j < (readdir cfg σ sink st).state.length ∧
        (∀ m, m < j → sink m = true) ∧ sink j = false) ∧
    (readdir cfg σ sink st).state.Perm st ∧
    (readdir cfg σ2 (fun _ => true)
      (readdir cfg σ sink st).state).ret = 0 ∧
    (readdir cfg σ2 (fun _ => true)
      (readdir cfg σ sink st).state).delivered.Perm st ∧
    releasedir (readdir cfg σ sink st).state = 0 := by
  have hst : (readdir cfg σ sink st).state.Perm st := by
    rw [readdir_state]
    exact direntsAfterShuffle_perm cfg σ st (hσ st)
  have hiff : ((if (fill sink (direntsAfterShuffle cfg σ st) 0).1
      then (0 : Int) else -ENOMEM) = -ENOMEM) ↔
      (fill sink (direntsAfterShuffle cfg σ st) 0).1 = false := by
    cases hb : (fill sink (direntsAfterShuffle cfg σ st) 0).1
    · rw [if_neg (by simp)]
      simp
    · rw [if_pos rfl]
      constructor
      · intro h
        exact absurd h (by unfold ENOMEM; omega)
      · intro h
        simp at h
  refine ⟨?_, ?_, hst, ?_, ?_, rfl⟩
  · cases hb : (fill sink (direntsAfterShuffle cfg σ st) 0).1
    · right
      rw [readdir_ret, hb, if_neg (by simp)]
    · left
      rw [readdir_ret, hb, if_pos rfl]
  · rw [readdir_ret, readdir_state, hiff, fill_fst_false_iff]
    constructor
    · rintro ⟨j, hj, hall, hjf⟩
      exact ⟨j, hj, fun m hm => by simpa using hall m hm,
        by simpa using hjf⟩
    · rintro ⟨j, hj, hall, hjf⟩
      exact ⟨j, hj, fun m hm => by simpa using hall m hm,
        by simpa using hjf⟩
  · rw [readdir_ret, fill_all_true]
    rfl
  · rw [readdir_delivered, fill_all_true]
    exact (direntsAfterShuffle_perm cfg σ2 _ (hσ2 _)).trans hst

/-- Witness for C9: a three-entry snapshot with a sink that accepts only
the first offer, then a retry with an accepting sink. -/
theorem C9_sink_refusal_enomem_witness :
    ((readdir {} id (fun i => decide (i = 0))
        [("a", 1), ("b", 2), ("c", 3)]).ret = 0 ∨
      (readdir {} id (fun i => decide (i = 0))
        [("a", 1), ("b", 2), ("c", 3)]).ret = -ENOMEM) ∧
    ((readdir {} id (fun i => decide (i = 0))
        [("a", 1), ("b", 2), ("c", 3)]).ret = -ENOMEM ↔
      ∃ j, j < (readdir {} id (fun i => decide (i = 0))
          [("a", 1), ("b", 2), ("c", 3)]).state.length ∧
        (∀ m, m < j → decide (m = 0) = true) ∧ decide (j = 0) = false) ∧
    (readdir {} id (fun i => decide (i = 0))
      [("a", 1), ("b", 2), ("c", 3)]).state.Perm
        [("a", 1), ("b", 2), ("c", 3)] ∧
    (readdir {} id (fun _ => true)
      (readdir {} id (fun i => decide (i = 0))
        [("a", 1), ("b", 2), ("c", 3)]).state).ret = 0 ∧
    (readdir {} id (fun _ => true)
      (readdir {} id (fun i => decide (i = 0))
        [("a", 1), ("b", 2), ("c", 3)]).state).delivered.Perm
        [("a", 1), ("b", 2), ("c", 3)] ∧
    releasedir (readdir {} id (fun i => decide (i = 0))
      [("a", 1), ("b", 2), ("c", 3)]).state = 0 :=
  C9_sink_refusal_enomem {} id id (fun i => decide (i = 0))
    [("a", 1), ("b", 2), ("c", 3)] (fun l => List.Perm.refl l)
    (fun l => List.Perm.refl l)

/-- C10: in the default configuration `reverse_dirents` is enabled and
`pad_blocks` is 1, while `multi_user`, `shuffle_dirents`, `sort_dirents`,
`sort_by_ctime`, `share_locks` and `quiet` are all disabled; consequently
`getattr` reports one extra block in `st_blocks` and every directory
snapshot is the exact reverse of the raw underlying order. -/
theorem C10_default_config :
    config.multi_user = 0 ∧ config.shuffle_dirents = 0 ∧
    config.reverse_dirents = 1 ∧ config.sort_dirents = 0 ∧
    config.pad_blocks = 1 ∧ config.share_locks = 0 ∧ config.quiet = 0 ∧
    config.sort_by_ctime = 0 ∧
    (∀ st : Stat, getattr config (.ok st) =
      .ok { st with st_blocks := st.st_blocks + 1 }) ∧
    (∀ (fs : Fs) (root path : String) (raw snap : Dirents)
        (warns : List String), fs.listing = .ok raw →
      opendir config fs root path = .ok (snap, warns) →
      snap = raw.reverse) := by
  refine ⟨rfl, rfl, rfl, rfl, rfl, rfl, rfl, rfl, fun st => rfl, ?_⟩
  intro fs root path raw snap warns hraw hopen
  obtain ⟨-, hsnap, -⟩ := opendir_ok_elim hraw hopen
  rw [sortPhase_no_sort config fs.ctime (root ++ path) raw rfl,
    if_pos (by decide : config.reverse_dirents ≠ 0)] at hsnap
  exact hsnap

/-- Witness for C10: the padded attribute query on a concrete stat and
the reversed snapshot of the concrete directory `[c, a, b]`. -/
theorem C10_default_config_witness :
    getattr config (.ok { st_ino := 9, st_blocks := 4 }) =
      .ok { st_ino := 9, st_blocks := 5 } ∧
    ([("b", 2), ("a", 1), ("c", 3)] : Dirents) =
      ([("c", 3), ("a", 1), ("b", 2)] : Dirents).reverse :=
  ⟨C10_default_config.2.2.2.2.2.2.2.2.1 { st_ino := 9, st_blocks := 4 },
   C10_default_config.2.2.2.2.2.2.2.2.2 fsCAB "/r" "/d"
     [("c", 3), ("a", 1), ("b", 2)] [("b", 2), ("a", 1), ("c", 3)] []
     rfl (by decide)⟩

end Disorderfs
